import Mathlib

/-!
Shallow embedding of the-sentry turret control core (src/turret), together
with theorems settling the specification claims.

Floating-point values from the C++ source are modelled as rationals (ℚ);
machine integers as ℕ / ℤ with explicit `% 2 ^ w` where overflow matters
(the `uint16_t lowRunMs` accumulator).  Each definition mirrors one function
of the source, keeping its name.
-/

namespace Sentry

/-! ### Configuration constants (src/turret/include/config.h) -/

def SENSOR_FILTER_WINDOW : ℕ := 8

def SENSOR_FILTER_THRESHOLD : ℕ := 6

def SENSOR_SATURATED_MS : ℕ := 2000

def PAN_STOP_US : ℕ := 1500

def PAN_CW_FULL_US : ℕ := 1300

def PAN_CCW_FULL_US : ℕ := 1700

def PAN_LIMIT_DEG : ℚ := 135

/-- 0.15f in the source. -/
def PAN_MIN_SPEED : ℚ := 3 / 20

def PAN_DEG_PER_SEC : ℚ := 60

def TILT_MIN_DEG : ℤ := 0

def TILT_MAX_DEG : ℤ := 45

def TILT_HOME_DEG : ℤ := 0

def TILT_STEP_DEG : ℤ := 1

def TILT_HOLDOFF_MS : ℕ := 100

/-- 0.80f in the source. -/
def TRACK_PAN_SPEED_FAST : ℚ := 4 / 5

/-- 0.30f in the source. -/
def TRACK_PAN_SPEED_SLOW : ℚ := 3 / 10

def SIGNAL_PRESENT_HOLDOFF_MS : ℕ := 500

def SIGNAL_LOSS_SEARCH_MS : ℕ := 3000

def SIGNAL_LOSS_PARK_MS : ℕ := 15000

def LOOP_PERIOD_MS : ℕ := 20

/-- TrackingEngine::APPROACH_MEMORY_MS (src/turret/include/tracking_engine.h). -/
def APPROACH_MEMORY_MS : ℕ := 400

/-! ### SensorArray (src/turret/src/sensor_array.cpp) -/

inductive SensorState where
  | INACTIVE
  | ACTIVE
  | SATURATED
deriving DecidableEq

structure SensorReading where
  top : SensorState
  bottom : SensorState
  left : SensorState
  right : SensorState
deriving DecidableEq

def SensorReading.anyActive (r : SensorReading) : Bool :=
  r.top = SensorState.ACTIVE ∨ r.bottom = SensorState.ACTIVE ∨
    r.left = SensorState.ACTIVE ∨ r.right = SensorState.ACTIVE

def SensorReading.noneActive (r : SensorReading) : Bool :=
  !r.anyActive

/-- Per-channel filter state (struct FilterState in sensor_array.h).
`buffer` is the bit-packed `uint8_t` ring buffer, `index` the next write
position, `lowRunMs` the `uint16_t` consecutive-active duration. -/
structure FilterState where
  buffer : ℕ := 0
  index : ℕ := 0
  lowRunMs : ℕ := 0
  saturated : Bool := false
deriving DecidableEq

namespace SensorArray

/-- SensorArray::pushSample.  `buffer &= ~(1 << index)` on a `uint8_t`
is the same as clearing bit `index` while keeping the low 8 bits, i.e.
`buffer &&& (255 ^^^ (1 <<< index))`. -/
def pushSample (f : FilterState) (active : Bool) : FilterState :=
  let buffer :=
    if active then f.buffer ||| (1 <<< f.index)
    else f.buffer &&& (255 ^^^ (1 <<< f.index))
  { f with buffer := buffer, index := (f.index + 1) % SENSOR_FILTER_WINDOW }

/-- Loop body of SensorArray::popcount after masking. -/
def popcountAux : ℕ → ℕ
  | 0 => 0
  | b + 1 => (b + 1) % 2 + popcountAux ((b + 1) / 2)
decreasing_by exact Nat.div_lt_self (Nat.succ_pos b) (by decide)

/-- SensorArray::popcount — counts the set bits among the lower
SENSOR_FILTER_WINDOW bits. -/
def popcount (bits : ℕ) : ℕ :=
  popcountAux (bits &&& ((1 <<< SENSOR_FILTER_WINDOW) - 1))

/-- SensorArray::evaluateSensor. -/
def evaluateSensor (f : FilterState) : SensorState :=
  if f.saturated then SensorState.SATURATED
  else if SENSOR_FILTER_THRESHOLD ≤ popcount f.buffer then SensorState.ACTIVE
  else SensorState.INACTIVE

/-- One channel's slice of SensorArray::update: push the raw sample, then
run the saturation tracking.  `lowRunMs` is a `uint16_t`, so the increment
wraps modulo 2^16. -/
def updateChannel (f : FilterState) (active : Bool) : FilterState :=
  let f := pushSample f active
  if active then
    let lowRunMs := (f.lowRunMs + LOOP_PERIOD_MS) % 65536
    { f with
        lowRunMs := lowRunMs,
        saturated := if SENSOR_SATURATED_MS ≤ lowRunMs then true else f.saturated }
  else
    { f with lowRunMs := 0, saturated := false }

/-- A channel's state after feeding a whole sample trace from the
zero-initialised filter (SensorArray::init). -/
def runChannel (trace : List Bool) : FilterState :=
  trace.foldl updateChannel {}

/-- Length of the trailing run of consecutive `true` samples in a trace. -/
def trailingRun (trace : List Bool) : ℕ :=
  (trace.reverse.takeWhile id).length

end SensorArray

/-! ### SignalMonitor (src/turret/src/signal_monitor.cpp) -/

inductive MonitorState where
  | TRACKING
  | SEARCHING
  | PARKED
deriving DecidableEq

/-- SignalMonitor's logical state (LED fields omitted: pure I/O). -/
structure SMState where
  state : MonitorState
  prevState : MonitorState
  lastSignalMs : ℕ
deriving DecidableEq

namespace SignalMonitor

/-- SignalMonitor::init at clock value `now`. -/
def init (now : ℕ) : SMState :=
  { state := MonitorState.TRACKING, prevState := MonitorState.TRACKING,
    lastSignalMs := now }

/-- SignalMonitor::update.  `now - lastSignalMs` is the unsigned elapsed
time; with the monotone millisecond clock it equals truncated ℕ
subtraction. -/
def update (m : SMState) (now : ℕ) (anySignalDetected : Bool) : SMState :=
  let m := { m with prevState := m.state }
  if anySignalDetected then
    { m with lastSignalMs := now, state := MonitorState.TRACKING }
  else
    let elapsed := now - m.lastSignalMs
    if elapsed < SIGNAL_PRESENT_HOLDOFF_MS then m
    else if SIGNAL_LOSS_PARK_MS ≤ elapsed then { m with state := MonitorState.PARKED }
    else if SIGNAL_LOSS_SEARCH_MS ≤ elapsed then { m with state := MonitorState.SEARCHING }
    else m

def stateChanged (m : SMState) : Bool :=
  m.state ≠ m.prevState

end SignalMonitor

/-! ### PanController (src/turret/src/pan_controller.cpp) -/

/-- PanController's state: commanded normalised speed and dead-reckoned
position (both `float` in the source, modelled as ℚ). -/
structure PanState where
  currentSpeed : ℚ := 0
  positionDeg : ℚ := 0

namespace PanController

/-- State after PanController::init. -/
def init : PanState := {}

/-- The input clamp at the top of PanController::setSpeed:
`if (speed > 1.0f) speed = 1.0f; if (speed < -1.0f) speed = -1.0f;`. -/
def clampInput (speed : ℚ) : ℚ :=
  let speed := if 1 < speed then 1 else speed
  if speed < -1 then -1 else speed

/-- PanController::setSpeed (the servo pulse write is I/O, not state). -/
def setSpeed (s : PanState) (speed : ℚ) : PanState :=
  let speed := clampInput speed
  let speed := if |speed| < PAN_MIN_SPEED then 0 else speed
  let speed := if PAN_LIMIT_DEG ≤ s.positionDeg ∧ 0 < speed then 0 else speed
  let speed := if s.positionDeg ≤ -PAN_LIMIT_DEG ∧ speed < 0 then 0 else speed
  { s with currentSpeed := speed }

/-- PanController::updatePosition. -/
def updatePosition (s : PanState) (dt_ms : ℕ) : PanState :=
  let dt_sec : ℚ := (dt_ms : ℚ) / 1000
  let positionDeg := s.positionDeg + s.currentSpeed * PAN_DEG_PER_SEC * dt_sec
  let positionDeg := if PAN_LIMIT_DEG < positionDeg then PAN_LIMIT_DEG else positionDeg
  let positionDeg := if positionDeg < -PAN_LIMIT_DEG then -PAN_LIMIT_DEG else positionDeg
  { s with positionDeg := positionDeg }

/-- PanController::speedToMicroseconds.  The `static_cast<uint16_t>` of a
nonnegative `float` truncates toward zero, i.e. takes the floor. -/
def speedToMicroseconds (speed : ℚ) : ℕ :=
  if 0 ≤ speed then
    (⌊(PAN_STOP_US : ℚ) - speed * ((PAN_STOP_US : ℚ) - (PAN_CW_FULL_US : ℚ))⌋).toNat
  else
    (⌊(PAN_STOP_US : ℚ) + (-speed) * ((PAN_CCW_FULL_US : ℚ) - (PAN_STOP_US : ℚ))⌋).toNat

end PanController

/-- One call in a PanController call sequence: setSpeed with an arbitrary
argument, or updatePosition with a `uint16_t` tick length. -/
inductive PanOp where
  | set (speed : ℚ)
  | update (dt_ms : ℕ)

/-- Run a sequence of PanController calls from a given state. -/
def runPan (s : PanState) : List PanOp → PanState
  | [] => s
  | PanOp.set v :: rest => runPan (PanController.setSpeed s v) rest
  | PanOp.update dt :: rest => runPan (PanController.updatePosition s dt) rest

/-! ### TiltController (src/turret/src/tilt_controller.cpp) -/

/-- TiltController's state: `int16_t currentAngle_` (modelled as ℤ) and
the last accepted step's timestamp. -/
structure TiltState where
  currentAngle : ℤ
  lastStepMs : ℕ
deriving DecidableEq

namespace TiltController

/-- State after TiltController::init at clock value `now`. -/
def init (now : ℕ) : TiltState :=
  { currentAngle := TILT_HOME_DEG, lastStepMs := now }

/-- The step-magnitude clamp inside TiltController::nudge. -/
def clampStep (delta : ℤ) : ℤ :=
  let delta := if TILT_STEP_DEG < delta then TILT_STEP_DEG else delta
  if delta < -TILT_STEP_DEG then -TILT_STEP_DEG else delta

/-- The range clamp inside TiltController::nudge / setAngle. -/
def clampAngle (a : ℤ) : ℤ :=
  let a := if a < TILT_MIN_DEG then TILT_MIN_DEG else a
  if TILT_MAX_DEG < a then TILT_MAX_DEG else a

/-- TiltController::setAngle. -/
def setAngle (s : TiltState) (degrees : ℤ) : TiltState :=
  { s with currentAngle := clampAngle degrees }

/-- TiltController::nudge — returns (applied?, new state).  With the
monotone clock, `now - lastStepMs` as unsigned arithmetic equals
truncated ℕ subtraction. -/
def nudge (s : TiltState) (now : ℕ) (delta : ℤ) : Bool × TiltState :=
  if now - s.lastStepMs < TILT_HOLDOFF_MS then (false, s)
  else
    (true,
      { currentAngle := clampAngle (s.currentAngle + clampStep delta),
        lastStepMs := now })

end TiltController

/-- Run a sequence of nudge calls, collecting the returned flags. -/
def runNudges (s : TiltState) : List (ℕ × ℤ) → List Bool × TiltState
  | [] => ([], s)
  | (t, d) :: rest =>
    let r := TiltController.nudge s t d
    let rr := runNudges r.2 rest
    (r.1 :: rr.1, rr.2)

/-- Which calls of a call-time sequence are accepted, per the spec: a call
is accepted iff at least TILT_HOLDOFF_MS has elapsed since the most recent
accepted step (or since init). -/
def acceptSpec (last : ℕ) : List ℕ → List Bool
  | [] => []
  | t :: rest =>
    if TILT_HOLDOFF_MS ≤ t - last then true :: acceptSpec t rest
    else false :: acceptSpec last rest

/-! ### TrackingEngine (src/turret/src/tracking_engine.cpp) -/

/-- TrackingEngine's per-direction activity memory. -/
structure TrackState where
  lastLeftActiveMs : ℕ := 0
  lastRightActiveMs : ℕ := 0
deriving DecidableEq

namespace TrackingEngine

/-- Memory state after TrackingEngine::init. -/
def init : TrackState := {}

/-- TrackingEngine::computePanSpeed — returns the commanded speed and the
updated activity memory.  Unsigned `now - last…ActiveMs` is modelled as
truncated ℕ subtraction (monotone clock). -/
def computePanSpeed (ts : TrackState) (now : ℕ) (r : SensorReading) :
    ℚ × TrackState :=
  let left : Bool := r.left = SensorState.ACTIVE
  let right : Bool := r.right = SensorState.ACTIVE
  let ts := if left then { ts with lastLeftActiveMs := now } else ts
  let ts := if right then { ts with lastRightActiveMs := now } else ts
  if left = right then (0, ts)
  else
    let nearCenter :=
      if left then now - ts.lastRightActiveMs < APPROACH_MEMORY_MS
      else now - ts.lastLeftActiveMs < APPROACH_MEMORY_MS
    let speed := if nearCenter then TRACK_PAN_SPEED_SLOW else TRACK_PAN_SPEED_FAST
    (if left then -speed else speed, ts)

/-- TrackingEngine::computeTiltDelta. -/
def computeTiltDelta (r : SensorReading) : ℤ :=
  let top : Bool := r.top = SensorState.ACTIVE
  let bottom : Bool := r.bottom = SensorState.ACTIVE
  if top = bottom then 0
  else if top then TILT_STEP_DEG
  else -TILT_STEP_DEG

end TrackingEngine

/-! ### Helper lemmas -/

theorem runPan_append (s : PanState) (l1 l2 : List PanOp) :
    runPan s (l1 ++ l2) = runPan (runPan s l1) l2 := by
  induction l1 generalizing s with
  | nil => rfl
  | cons op rest ih => cases op <;> simp [runPan, ih]

theorem updatePosition_bounds (s : PanState) (dt_ms : ℕ) :
    -PAN_LIMIT_DEG ≤ (PanController.updatePosition s dt_ms).positionDeg ∧
      (PanController.updatePosition s dt_ms).positionDeg ≤ PAN_LIMIT_DEG := by
  unfold PanController.updatePosition PAN_LIMIT_DEG
  dsimp only
  split_ifs <;> constructor <;> norm_num <;> linarith

/-! ### Claims -/

/-- C1: for every sequence of setSpeed calls with arbitrary arguments and
updatePosition calls with arbitrary (nonnegative) dt_ms, starting from the
initial state, the dead-reckoned position estimate lies in
[−PAN_LIMIT_DEG, PAN_LIMIT_DEG] after every updatePosition call returns. -/
theorem C1_pan_position_invariant (ops : List PanOp) (dt_ms : ℕ) :
    -PAN_LIMIT_DEG ≤
        (runPan PanController.init (ops ++ [PanOp.update dt_ms])).positionDeg ∧
      (runPan PanController.init (ops ++ [PanOp.update dt_ms])).positionDeg ≤
        PAN_LIMIT_DEG := by
  rw [runPan_append]
  exact updatePosition_bounds _ dt_ms

/-- C2: with holdoff 500 ms, search threshold 3000 ms, park threshold
15000 ms and the last positive detection at t = 0: an update with no
detection at t = 600 leaves the state TRACKING, at t = 3100 it becomes
SEARCHING, at t = 15100 it becomes PARKED; and an update with a positive
detection, from any state at any tick, sets the state to TRACKING on that
same call and resets the last-detection time to now. -/
theorem C2_signal_monitor_scenarios :
    (∀ p : MonitorState,
      (SignalMonitor.update ⟨MonitorState.TRACKING, p, 0⟩ 600 false).state =
        MonitorState.TRACKING) ∧
    (∀ st p : MonitorState,
      (SignalMonitor.update ⟨st, p, 0⟩ 3100 false).state =
        MonitorState.SEARCHING) ∧
    (∀ st p : MonitorState,
      (SignalMonitor.update ⟨st, p, 0⟩ 15100 false).state =
        MonitorState.PARKED) ∧
    (∀ (m : SMState) (now : ℕ),
      (SignalMonitor.update m now true).state = MonitorState.TRACKING ∧
        (SignalMonitor.update m now true).lastSignalMs = now) := by
  refine ⟨fun p => ?_, fun st p => ?_, fun st p => ?_, fun m now => ?_⟩
  · cases p <;> decide
  · cases st <;> cases p <;> decide
  · cases st <;> cases p <;> decide
  · obtain ⟨st, p, t⟩ := m
    exact ⟨rfl, rfl⟩

/-- C3: whenever the left and right channels are both ACTIVE or both
non-ACTIVE, the commanded pan speed is 0; whenever top and bottom are both
ACTIVE or both non-ACTIVE, the commanded tilt delta is 0. -/
theorem C3_dead_band_zero_commands (ts : TrackState) (now : ℕ)
    (r : SensorReading) :
    ((r.left = SensorState.ACTIVE ↔ r.right = SensorState.ACTIVE) →
      (TrackingEngine.computePanSpeed ts now r).1 = 0) ∧
    ((r.top = SensorState.ACTIVE ↔ r.bottom = SensorState.ACTIVE) →
      TrackingEngine.computeTiltDelta r = 0) := by
  obtain ⟨rt, rb, rl, rr⟩ := r
  constructor
  · intro h
    cases rl <;> cases rr <;>
      simp_all [TrackingEngine.computePanSpeed]
  · intro h
    cases rt <;> cases rb <;>
      simp_all [TrackingEngine.computeTiltDelta]

theorem clampInput_pos {v : ℚ} (h : 0 < v) : 0 < PanController.clampInput v := by
  unfold PanController.clampInput
  dsimp only
  split_ifs <;> linarith

theorem clampInput_neg {v : ℚ} (h : v < 0) : PanController.clampInput v < 0 := by
  unfold PanController.clampInput
  dsimp only
  split_ifs <;> linarith

/-- C4: setSpeed first clamps its argument to [−1,1]; a clamped magnitude
below PAN_MIN_SPEED stores 0; at or beyond the positive travel limit a
positive command stores 0 while a negative command surviving the dead zone
is stored as the clamped value; symmetrically at the negative limit. -/
theorem C4_setSpeed_clamp_deadzone_limits (s : PanState) (v : ℚ) :
    (|PanController.clampInput v| < PAN_MIN_SPEED →
      (PanController.setSpeed s v).currentSpeed = 0) ∧
    (PAN_LIMIT_DEG ≤ s.positionDeg → 0 < v →
      (PanController.setSpeed s v).currentSpeed = 0) ∧
    (PAN_LIMIT_DEG ≤ s.positionDeg → v < 0 →
      PAN_MIN_SPEED ≤ |PanController.clampInput v| →
      (PanController.setSpeed s v).currentSpeed = PanController.clampInput v) ∧
    (s.positionDeg ≤ -PAN_LIMIT_DEG → v < 0 →
      (PanController.setSpeed s v).currentSpeed = 0) ∧
    (s.positionDeg ≤ -PAN_LIMIT_DEG → 0 < v →
      PAN_MIN_SPEED ≤ |PanController.clampInput v| →
      (PanController.setSpeed s v).currentSpeed = PanController.clampInput v) := by
  unfold PanController.setSpeed
  dsimp only
  refine ⟨fun hdead => ?_, fun hlim hv => ?_, fun hlim hv hmag => ?_,
    fun hlim hv => ?_, fun hlim hv hmag => ?_⟩
  · rw [if_pos hdead]
    simp
  · by_cases hdead : |PanController.clampInput v| < PAN_MIN_SPEED
    · rw [if_pos hdead]
      simp
    · rw [if_neg hdead,
        if_pos (show PAN_LIMIT_DEG ≤ s.positionDeg ∧ 0 < PanController.clampInput v
          from ⟨hlim, clampInput_pos hv⟩)]
      simp
  · have hno : ¬ |PanController.clampInput v| < PAN_MIN_SPEED := not_lt.mpr hmag
    rw [if_neg hno]
    have h1 : ¬ (PAN_LIMIT_DEG ≤ s.positionDeg ∧ 0 < PanController.clampInput v) := by
      rintro ⟨-, hpos⟩
      exact absurd hpos (not_lt.mpr (clampInput_neg hv).le)
    rw [if_neg h1]
    have h2 : ¬ (s.positionDeg ≤ -PAN_LIMIT_DEG ∧ PanController.clampInput v < 0) := by
      rintro ⟨hle, -⟩
      unfold PAN_LIMIT_DEG at hlim hle
      linarith
    rw [if_neg h2]
  · by_cases hdead : |PanController.clampInput v| < PAN_MIN_SPEED
    · rw [if_pos hdead]
      simp
    · rw [if_neg hdead]
      have h1 : ¬ (PAN_LIMIT_DEG ≤ s.positionDeg ∧ 0 < PanController.clampInput v) := by
        rintro ⟨hge, -⟩
        unfold PAN_LIMIT_DEG at hge hlim
        linarith
      rw [if_neg h1, if_pos ⟨hlim, clampInput_neg hv⟩]
  · have hno : ¬ |PanController.clampInput v| < PAN_MIN_SPEED := not_lt.mpr hmag
    rw [if_neg hno]
    have h1 : ¬ (PAN_LIMIT_DEG ≤ s.positionDeg ∧ 0 < PanController.clampInput v) := by
      rintro ⟨hge, -⟩
      unfold PAN_LIMIT_DEG at hge hlim
      linarith
    rw [if_neg h1]
    have h2 : ¬ (s.positionDeg ≤ -PAN_LIMIT_DEG ∧ PanController.clampInput v < 0) := by
      rintro ⟨-, hneg⟩
      exact absurd hneg (not_lt.mpr (clampInput_pos hv).le)
    rw [if_neg h2]

/-- C4 at a concrete input: at the positive limit, a command of −1/2 (well
above the dead zone in magnitude) is stored unchanged. -/
theorem C4_setSpeed_witness :
    (PanController.setSpeed ⟨0, 135⟩ (-(1 : ℚ) / 2)).currentSpeed =
      PanController.clampInput (-(1 : ℚ) / 2) :=
  (C4_setSpeed_clamp_deadzone_limits ⟨0, 135⟩ (-(1 : ℚ) / 2)).2.2.1
    (by norm_num [PAN_LIMIT_DEG]) (by norm_num)
    (by norm_num [PanController.clampInput, PAN_MIN_SPEED, abs_of_nonpos])

/-- C8: of two nudge calls after an accepted first step, the second is
rejected with the whole state unchanged when it comes less than
TILT_HOLDOFF_MS after the first, and is accepted — applying its delta
clamped to ±TILT_STEP_DEG with the resulting angle clamped to
[TILT_MIN_DEG, TILT_MAX_DEG] — when it comes at or after the holdoff. -/
theorem C8_nudge_holdoff_pair (s : TiltState) (t1 t2 : ℕ) (d1 d2 : ℤ)
    (h1 : TILT_HOLDOFF_MS ≤ t1 - s.lastStepMs) :
    (TiltController.nudge s t1 d1).1 = true ∧
    (TiltController.nudge s t1 d1).2.currentAngle =
      TiltController.clampAngle (s.currentAngle + TiltController.clampStep d1) ∧
    (t2 - t1 < TILT_HOLDOFF_MS →
      TiltController.nudge (TiltController.nudge s t1 d1).2 t2 d2 =
        (false, (TiltController.nudge s t1 d1).2)) ∧
    (TILT_HOLDOFF_MS ≤ t2 - t1 →
      (TiltController.nudge (TiltController.nudge s t1 d1).2 t2 d2).1 = true ∧
      (TiltController.nudge (TiltController.nudge s t1 d1).2 t2 d2).2.currentAngle =
        TiltController.clampAngle
          ((TiltController.nudge s t1 d1).2.currentAngle +
            TiltController.clampStep d2)) := by
  have hA : ¬ (t1 - s.lastStepMs < TILT_HOLDOFF_MS) := not_lt.mpr h1
  refine ⟨?_, ?_, fun hr => ?_, fun ha => ?_⟩
  · simp [TiltController.nudge, hA]
  · simp [TiltController.nudge, hA]
  · simp [TiltController.nudge, hA, hr]
  · have hB : ¬ (t2 - t1 < TILT_HOLDOFF_MS) := not_lt.mpr ha
    simp [TiltController.nudge, hA, hB]

/-- C8 at a concrete input: from angle 0 with the last step at t = 0, a
nudge at t = 100 is accepted and a second nudge at t = 150 is rejected
without touching the state. -/
theorem C8_nudge_holdoff_witness :
    TiltController.nudge (TiltController.nudge ⟨0, 0⟩ 100 1).2 150 1 =
      (false, (TiltController.nudge ⟨0, 0⟩ 100 1).2) :=
  (C8_nudge_holdoff_pair ⟨0, 0⟩ 100 150 1 1 (by decide)).2.2.1 (by decide)

/-- C9: a rejected nudge leaves the state — in particular the
last-accepted-step timestamp — unchanged, so over any monotonically
timed call sequence a call is accepted exactly when at least
TILT_HOLDOFF_MS has elapsed since the most recent accepted step (or since
init): the returned flags equal the acceptance schedule computed from the
call times alone. -/
theorem C9_nudge_accept_schedule (s : TiltState) (t : ℕ) (d : ℤ)
    (calls : List (ℕ × ℤ))
    (hmono : List.Chain (· ≤ ·) s.lastStepMs (calls.map Prod.fst)) :
    ((TiltController.nudge s t d).1 = false → (TiltController.nudge s t d).2 = s) ∧
    (runNudges s calls).1 = acceptSpec s.lastStepMs (calls.map Prod.fst) := by
  constructor
  · intro hrej
    unfold TiltController.nudge at hrej ⊢
    by_cases h : t - s.lastStepMs < TILT_HOLDOFF_MS
    · rw [if_pos h]
    · rw [if_neg h] at hrej
      exact absurd hrej (by simp)
  · clear hmono
    induction calls generalizing s with
    | nil => rfl
    | cons c rest ih =>
      obtain ⟨tc, dc⟩ := c
      by_cases h : tc - s.lastStepMs < TILT_HOLDOFF_MS
      · have hns : ¬ TILT_HOLDOFF_MS ≤ tc - s.lastStepMs := not_le.mpr h
        simp [runNudges, acceptSpec, TiltController.nudge, h, hns, ih]
      · have hs : TILT_HOLDOFF_MS ≤ tc - s.lastStepMs := not_lt.mp h
        simp only [runNudges, acceptSpec, TiltController.nudge, if_neg h,
          List.map_cons, if_pos hs]
        exact congrArg (List.cons true) (ih _)

/-- C9 at a concrete input: from init at t = 0, calls at t = 100, 150, 250
produce accept, reject, accept — exactly the schedule computed from the
call times. -/
theorem C9_nudge_accept_witness :
    (runNudges ⟨0, 0⟩ [(100, 1), (150, 2), (250, -1)]).1 =
      acceptSpec 0 [100, 150, 250] :=
  (C9_nudge_accept_schedule ⟨0, 0⟩ 0 0 [(100, 1), (150, 2), (250, -1)]
    (List.Chain.cons (by norm_num) (List.Chain.cons (by norm_num)
      (List.Chain.cons (by norm_num) List.Chain.nil)))).2

/-- C10: for every speed in [−1,1] the commanded pulse width lies between
PAN_CW_FULL_US and PAN_CCW_FULL_US, is exactly PAN_STOP_US at speed 0,
reaches PAN_CW_FULL_US at +1 and PAN_CCW_FULL_US at −1, and decreases
monotonically as the speed increases. -/
theorem C10_speed_to_us_range (speed : ℚ) (hlo : -1 ≤ speed) (hhi : speed ≤ 1) :
    (PAN_CW_FULL_US ≤ PanController.speedToMicroseconds speed ∧
      PanController.speedToMicroseconds speed ≤ PAN_CCW_FULL_US) ∧
    PanController.speedToMicroseconds 0 = PAN_STOP_US ∧
    PanController.speedToMicroseconds 1 = PAN_CW_FULL_US ∧
    PanController.speedToMicroseconds (-1) = PAN_CCW_FULL_US ∧
    (∀ s2 : ℚ, speed ≤ s2 → s2 ≤ 1 →
      PanController.speedToMicroseconds s2 ≤ PanController.speedToMicroseconds speed) := by
  have repPos : ∀ w : ℚ, 0 ≤ w →
      PanController.speedToMicroseconds w = (⌊(1500 : ℚ) - w * 200⌋).toNat := by
    intro w hw
    unfold PanController.speedToMicroseconds PAN_STOP_US PAN_CW_FULL_US
    rw [if_pos hw]
    norm_num
  have repNeg : ∀ w : ℚ, w < 0 →
      PanController.speedToMicroseconds w = (⌊(1500 : ℚ) + -w * 200⌋).toNat := by
    intro w hw
    unfold PanController.speedToMicroseconds PAN_STOP_US PAN_CCW_FULL_US
    rw [if_neg (not_le.mpr hw)]
    norm_num
  have fbPos : ∀ w : ℚ, 0 ≤ w → w ≤ 1 →
      (1300 : ℤ) ≤ ⌊(1500 : ℚ) - w * 200⌋ ∧ ⌊(1500 : ℚ) - w * 200⌋ ≤ 1500 := by
    intro w h0 h1
    refine ⟨Int.le_floor.mpr (by push_cast; linarith), ?_⟩
    have := Int.floor_lt.mpr (show (1500 : ℚ) - w * 200 < ((1501 : ℤ) : ℚ) by
      push_cast; linarith)
    omega
  have fbNeg : ∀ w : ℚ, -1 ≤ w → w < 0 →
      (1500 : ℤ) ≤ ⌊(1500 : ℚ) + -w * 200⌋ ∧ ⌊(1500 : ℚ) + -w * 200⌋ ≤ 1700 := by
    intro w h0 h1
    refine ⟨Int.le_floor.mpr (by push_cast; linarith), ?_⟩
    have := Int.floor_lt.mpr (show (1500 : ℚ) + -w * 200 < ((1701 : ℤ) : ℚ) by
      push_cast; linarith)
    omega
  refine ⟨?_, ?_, ?_, ?_, ?_⟩
  · unfold PAN_CW_FULL_US PAN_CCW_FULL_US
    rcases le_or_lt 0 speed with hp | hn
    · rw [repPos speed hp]
      obtain ⟨hb1, hb2⟩ := fbPos speed hp hhi
      omega
    · rw [repNeg speed hn]
      obtain ⟨hb1, hb2⟩ := fbNeg speed hlo hn
      omega
  · rw [repPos 0 le_rfl]
    norm_num [PAN_STOP_US] <;> decide
  · rw [repPos 1 (by norm_num)]
    norm_num [PAN_CW_FULL_US] <;> decide
  · rw [repNeg (-1) (by norm_num)]
    norm_num [PAN_CCW_FULL_US] <;> decide
  · intro s2 hle hs2
    rcases le_or_lt 0 speed with hp | hn
    · have hp2 : (0 : ℚ) ≤ s2 := hp.trans hle
      rw [repPos speed hp, repPos s2 hp2]
      have : ⌊(1500 : ℚ) - s2 * 200⌋ ≤ ⌊(1500 : ℚ) - speed * 200⌋ :=
        Int.floor_le_floor (by linarith)
      omega
    · rcases le_or_lt 0 s2 with hq | hq
      · rw [repPos s2 hq, repNeg speed hn]
        obtain ⟨hb1, -⟩ := fbNeg speed hlo hn
        obtain ⟨-, hb2⟩ := fbPos s2 hq hs2
        omega
      · rw [repNeg speed hn, repNeg s2 hq]
        have : ⌊(1500 : ℚ) + -s2 * 200⌋ ≤ ⌊(1500 : ℚ) + -speed * 200⌋ :=
          Int.floor_le_floor (by linarith)
        omega

/-- C10 at a concrete input: at half forward speed the pulse width stays
within the calibration range. -/
theorem C10_speed_to_us_witness :
    PAN_CW_FULL_US ≤ PanController.speedToMicroseconds (1 / 2) ∧
      PanController.speedToMicroseconds (1 / 2) ≤ PAN_CCW_FULL_US :=
  (C10_speed_to_us_range (1 / 2) (by norm_num) (by norm_num)).1

theorem updateChannel_true_lowRun (f : FilterState) :
    (SensorArray.updateChannel f true).lowRunMs =
      (f.lowRunMs + LOOP_PERIOD_MS) % 65536 := rfl

theorem updateChannel_true_saturated (f : FilterState) :
    (SensorArray.updateChannel f true).saturated =
      if SENSOR_SATURATED_MS ≤ (f.lowRunMs + LOOP_PERIOD_MS) % 65536 then true
      else f.saturated := rfl

theorem updateChannel_false_state (f : FilterState) :
    (SensorArray.updateChannel f false).lowRunMs = 0 ∧
      (SensorArray.updateChannel f false).saturated = false :=
  ⟨rfl, rfl⟩

/-- Arithmetic core of the saturation induction step: one more active tick
keeps the wrapped accumulator in sync and makes the saturated flag agree
with the true (unwrapped) run length. -/
theorem sat_step_arith (n : ℕ) :
    ((20 * n % 65536 + 20) % 65536 = 20 * (n + 1) % 65536) ∧
      ((if 2000 ≤ (20 * n % 65536 + 20) % 65536 then true
        else decide (2000 ≤ 20 * n)) = decide (2000 ≤ 20 * (n + 1))) := by
  have hm2 : 20 * n % 65536 < 65536 := Nat.mod_lt _ (by norm_num)
  have hm : 20 * n % 65536 ≤ 20 * n := Nat.mod_le _ _
  have hsplit : (20 * n % 65536 + 20) % 65536 = 20 * n % 65536 + 20 ∨
      ((20 * n % 65536 + 20) % 65536 = 20 * n % 65536 + 20 - 65536 ∧
        65536 ≤ 20 * n % 65536 + 20) := by
    rcases Nat.lt_or_ge (20 * n % 65536 + 20) 65536 with hlt | hge
    · exact Or.inl (Nat.mod_eq_of_lt hlt)
    · exact Or.inr ⟨by rw [Nat.mod_eq_sub_mod hge, Nat.mod_eq_of_lt (by omega)], hge⟩
  constructor
  · omega
  · by_cases h : 2000 ≤ (20 * n % 65536 + 20) % 65536
    · rw [if_pos h]
      refine (decide_eq_true ?_).symm
      rcases hsplit with he | ⟨he, hb⟩ <;> rw [he] at h <;> omega
    · rw [if_neg h]
      refine decide_eq_decide.mpr ?_
      constructor
      · intro hx
        omega
      · intro hx
        rcases hsplit with he | ⟨he, hb⟩
        · rw [he] at h
          omega
        · omega

theorem runChannel_concat (xs : List Bool) (x : Bool) :
    SensorArray.runChannel (xs ++ [x]) =
      SensorArray.updateChannel (SensorArray.runChannel xs) x := by
  simp [SensorArray.runChannel, List.foldl_append]

theorem trailingRun_concat (xs : List Bool) (x : Bool) :
    SensorArray.trailingRun (xs ++ [x]) =
      if x then SensorArray.trailingRun xs + 1 else 0 := by
  cases x <;> simp [SensorArray.trailingRun, List.takeWhile_cons]

/-- The `lowRunMs` accumulator holds the (wrapped) duration of the trailing
active run, and the saturated flag is set exactly when that true duration
has ever reached the threshold — which, for a run still unbroken, is
exactly when the current run is long enough. -/
theorem runChannel_lowRun_saturated (trace : List Bool) :
    (SensorArray.runChannel trace).lowRunMs =
        (LOOP_PERIOD_MS * SensorArray.trailingRun trace) % 65536 ∧
      (SensorArray.runChannel trace).saturated =
        decide (SENSOR_SATURATED_MS ≤ LOOP_PERIOD_MS * SensorArray.trailingRun trace) := by
  induction trace using List.reverseRecOn with
  | nil => exact ⟨rfl, rfl⟩
  | append_singleton xs x ih =>
    obtain ⟨ih1, ih2⟩ := ih
    cases x with
    | false =>
      have e0 : SensorArray.trailingRun (xs ++ [false]) = 0 := by
        rw [trailingRun_concat]
        simp
      obtain ⟨hl, hs⟩ := updateChannel_false_state (SensorArray.runChannel xs)
      rw [runChannel_concat, e0, hl, hs]
      exact ⟨rfl, rfl⟩
    | true =>
      have e1 : SensorArray.trailingRun (xs ++ [true]) =
          SensorArray.trailingRun xs + 1 := by
        rw [trailingRun_concat]
        simp
      rw [runChannel_concat, e1, updateChannel_true_lowRun,
        updateChannel_true_saturated, ih1, ih2]
      exact sat_step_arith (SensorArray.trailingRun xs)

/-- C6: a channel's saturated flag is true exactly when its run of
consecutive active ticks times the tick period has reached
SENSOR_SATURATED_MS (any inactive sample clears it), getFiltered reports
SATURATED exactly when the flag is set, and a channel continuously active
for at least the saturation duration therefore never reads ACTIVE,
regardless of the window contents. -/
theorem C6_saturation_iff (trace : List Bool) :
    ((SensorArray.runChannel trace).saturated =
        decide (SENSOR_SATURATED_MS ≤
          LOOP_PERIOD_MS * SensorArray.trailingRun trace)) ∧
      (SensorArray.evaluateSensor (SensorArray.runChannel trace) =
          SensorState.SATURATED ↔
        (SensorArray.runChannel trace).saturated = true) ∧
      (SENSOR_SATURATED_MS ≤ LOOP_PERIOD_MS * SensorArray.trailingRun trace →
        SensorArray.evaluateSensor (SensorArray.runChannel trace) ≠
          SensorState.ACTIVE) := by
  obtain ⟨h1, h2⟩ := runChannel_lowRun_saturated trace
  refine ⟨h2, ?_, fun hge => ?_⟩
  · unfold SensorArray.evaluateSensor
    rcases hb : (SensorArray.runChannel trace).saturated with - | -
    · rw [if_neg (by simp [hb])]
      split_ifs <;> simp
    · rw [if_pos (by simp [hb])]
      simp
  · have hsat : (SensorArray.runChannel trace).saturated = true := by
      rw [h2]
      exact decide_eq_true hge
    unfold SensorArray.evaluateSensor
    rw [if_pos (by simp [hsat])]
    simp

/-- C5, counterexample: immediately after init() (both memory timestamps
0), a left-only reading at now = 100 ms commands the slow magnitude, not
the fast one the claim requires for a reading with no prior opposite-side
activity — the zeroed memory counts as right-side activity at time 0,
which is still within the 400 ms window. -/
theorem C5_counterexample_slow_after_init :
    (TrackingEngine.computePanSpeed TrackingEngine.init 100
        ⟨SensorState.INACTIVE, SensorState.INACTIVE, SensorState.ACTIVE,
          SensorState.INACTIVE⟩).1 = -TRACK_PAN_SPEED_SLOW ∧
      -TRACK_PAN_SPEED_SLOW ≠ -TRACK_PAN_SPEED_FAST := by
  constructor
  · rw [show (TrackingEngine.computePanSpeed TrackingEngine.init 100
        ⟨SensorState.INACTIVE, SensorState.INACTIVE, SensorState.ACTIVE,
          SensorState.INACTIVE⟩).1 =
        -(if (100 : ℕ) - 0 < APPROACH_MEMORY_MS then TRACK_PAN_SPEED_SLOW
          else TRACK_PAN_SPEED_FAST) from rfl,
      if_pos (by norm_num [APPROACH_MEMORY_MS])]
  · norm_num [TRACK_PAN_SPEED_SLOW, TRACK_PAN_SPEED_FAST]

/-- C5, amended: for a one-sided horizontal reading the active side sets
the sign (left → negative, right → positive) and the same-side memory is
stamped with now; the magnitude is TRACK_PAN_SPEED_SLOW exactly when the
opposite side's memory timestamp lies within APPROACH_MEMORY_MS of now,
and TRACK_PAN_SPEED_FAST otherwise.  After init() — which zeroes the
memory, equivalent to opposite-side activity at time 0 — a one-sided
reading commands the fast magnitude provided at least APPROACH_MEMORY_MS
has elapsed since boot. -/
theorem C5_one_sided_speed_amended (ts : TrackState) (now : ℕ)
    (r : SensorReading) (hL : ts.lastLeftActiveMs ≤ now)
    (hR : ts.lastRightActiveMs ≤ now) :
    (r.left = SensorState.ACTIVE → r.right ≠ SensorState.ACTIVE →
      ((TrackingEngine.computePanSpeed ts now r).1 =
          -(if now - ts.lastRightActiveMs < APPROACH_MEMORY_MS then
              TRACK_PAN_SPEED_SLOW else TRACK_PAN_SPEED_FAST) ∧
        (TrackingEngine.computePanSpeed ts now r).1 < 0 ∧
        (TrackingEngine.computePanSpeed ts now r).2.lastLeftActiveMs = now)) ∧
    (r.right = SensorState.ACTIVE → r.left ≠ SensorState.ACTIVE →
      ((TrackingEngine.computePanSpeed ts now r).1 =
          (if now - ts.lastLeftActiveMs < APPROACH_MEMORY_MS then
              TRACK_PAN_SPEED_SLOW else TRACK_PAN_SPEED_FAST) ∧
        0 < (TrackingEngine.computePanSpeed ts now r).1 ∧
        (TrackingEngine.computePanSpeed ts now r).2.lastRightActiveMs = now)) ∧
    (APPROACH_MEMORY_MS ≤ now → r.left = SensorState.ACTIVE →
      r.right ≠ SensorState.ACTIVE →
      (TrackingEngine.computePanSpeed TrackingEngine.init now r).1 =
        -TRACK_PAN_SPEED_FAST) ∧
    (APPROACH_MEMORY_MS ≤ now → r.right = SensorState.ACTIVE →
      r.left ≠ SensorState.ACTIVE →
      (TrackingEngine.computePanSpeed TrackingEngine.init now r).1 =
        TRACK_PAN_SPEED_FAST) := by
  obtain ⟨rt, rb, rl, rr⟩ := r
  refine ⟨fun hl hr => ?_, fun hr hl => ?_, fun h400 hl hr => ?_,
    fun h400 hr hl => ?_⟩
  · subst hl
    cases rr with
    | ACTIVE => exact absurd rfl hr
    | INACTIVE =>
      refine ⟨rfl, ?_, rfl⟩
      rw [show (TrackingEngine.computePanSpeed ts now
          ⟨rt, rb, SensorState.ACTIVE, SensorState.INACTIVE⟩).1 =
          -(if now - ts.lastRightActiveMs < APPROACH_MEMORY_MS then
            TRACK_PAN_SPEED_SLOW else TRACK_PAN_SPEED_FAST) from rfl]
      split_ifs <;> norm_num [TRACK_PAN_SPEED_SLOW, TRACK_PAN_SPEED_FAST]
    | SATURATED =>
      refine ⟨rfl, ?_, rfl⟩
      rw [show (TrackingEngine.computePanSpeed ts now
          ⟨rt, rb, SensorState.ACTIVE, SensorState.SATURATED⟩).1 =
          -(if now - ts.lastRightActiveMs < APPROACH_MEMORY_MS then
            TRACK_PAN_SPEED_SLOW else TRACK_PAN_SPEED_FAST) from rfl]
      split_ifs <;> norm_num [TRACK_PAN_SPEED_SLOW, TRACK_PAN_SPEED_FAST]
  · subst hr
    cases rl with
    | ACTIVE => exact absurd rfl hl
    | INACTIVE =>
      refine ⟨rfl, ?_, rfl⟩
      rw [show (TrackingEngine.computePanSpeed ts now
          ⟨rt, rb, SensorState.INACTIVE, SensorState.ACTIVE⟩).1 =
          (if now - ts.lastLeftActiveMs < APPROACH_MEMORY_MS then
            TRACK_PAN_SPEED_SLOW else TRACK_PAN_SPEED_FAST) from rfl]
      split_ifs <;> norm_num [TRACK_PAN_SPEED_SLOW, TRACK_PAN_SPEED_FAST]
    | SATURATED =>
      refine ⟨rfl, ?_, rfl⟩
      rw [show (TrackingEngine.computePanSpeed ts now
          ⟨rt, rb, SensorState.SATURATED, SensorState.ACTIVE⟩).1 =
          (if now - ts.lastLeftActiveMs < APPROACH_MEMORY_MS then
            TRACK_PAN_SPEED_SLOW else TRACK_PAN_SPEED_FAST) from rfl]
      split_ifs <;> norm_num [TRACK_PAN_SPEED_SLOW, TRACK_PAN_SPEED_FAST]
  · subst hl
    have hno : ¬ (now - 0 < APPROACH_MEMORY_MS) := by
      rw [Nat.sub_zero]
      exact not_lt.mpr h400
    cases rr with
    | ACTIVE => exact absurd rfl hr
    | INACTIVE =>
      rw [show (TrackingEngine.computePanSpeed TrackingEngine.init now
          ⟨rt, rb, SensorState.ACTIVE, SensorState.INACTIVE⟩).1 =
          -(if now - 0 < APPROACH_MEMORY_MS then
            TRACK_PAN_SPEED_SLOW else TRACK_PAN_SPEED_FAST) from rfl,
        if_neg hno]
    | SATURATED =>
      rw [show (TrackingEngine.computePanSpeed TrackingEngine.init now
          ⟨rt, rb, SensorState.ACTIVE, SensorState.SATURATED⟩).1 =
          -(if now - 0 < APPROACH_MEMORY_MS then
            TRACK_PAN_SPEED_SLOW else TRACK_PAN_SPEED_FAST) from rfl,
        if_neg hno]
  · subst hr
    have hno : ¬ (now - 0 < APPROACH_MEMORY_MS) := by
      rw [Nat.sub_zero]
      exact not_lt.mpr h400
    cases rl with
    | ACTIVE => exact absurd rfl hl
    | INACTIVE =>
      rw [show (TrackingEngine.computePanSpeed TrackingEngine.init now
          ⟨rt, rb, SensorState.INACTIVE, SensorState.ACTIVE⟩).1 =
          (if now - 0 < APPROACH_MEMORY_MS then
            TRACK_PAN_SPEED_SLOW else TRACK_PAN_SPEED_FAST) from rfl,
        if_neg hno]
    | SATURATED =>
      rw [show (TrackingEngine.computePanSpeed TrackingEngine.init now
          ⟨rt, rb, SensorState.SATURATED, SensorState.ACTIVE⟩).1 =
          (if now - 0 < APPROACH_MEMORY_MS then
            TRACK_PAN_SPEED_SLOW else TRACK_PAN_SPEED_FAST) from rfl,
        if_neg hno]

/-- C5 at a concrete input: 500 ms after boot, with untouched memory, a
left-only reading commands the fast magnitude. -/
theorem C5_one_sided_speed_witness :
    (TrackingEngine.computePanSpeed TrackingEngine.init 500
        ⟨SensorState.INACTIVE, SensorState.INACTIVE, SensorState.ACTIVE,
          SensorState.INACTIVE⟩).1 = -TRACK_PAN_SPEED_FAST :=
  (C5_one_sided_speed_amended TrackingEngine.init 500
      ⟨SensorState.INACTIVE, SensorState.INACTIVE, SensorState.ACTIVE,
        SensorState.INACTIVE⟩ (by norm_num [TrackingEngine.init])
      (by norm_num [TrackingEngine.init])).2.2.1
    (by norm_num [APPROACH_MEMORY_MS]) rfl (by decide)

/-- popcountAux counts the set bits of its argument (stated for arguments
below a power of two). -/
theorem popcountAux_spec : ∀ (k b : ℕ), b < 2 ^ k →
    SensorArray.popcountAux b =
      (List.range k).countP (fun j => b.testBit j) := by
  intro k
  induction k with
  | zero =>
    intro b hb
    interval_cases b
    simp [SensorArray.popcountAux]
  | succ k ih =>
    intro b hb
    match b with
    | 0 => simp [SensorArray.popcountAux]
    | b + 1 =>
      have hstep : SensorArray.popcountAux (b + 1) =
          (b + 1) % 2 + SensorArray.popcountAux ((b + 1) / 2) := by
        conv_lhs => rw [SensorArray.popcountAux]
      have hdiv : (b + 1) / 2 < 2 ^ k := by
        rw [pow_succ] at hb
        omega
      rw [hstep, ih _ hdiv, List.range_succ_eq_map, List.countP_cons,
        List.countP_map]
      have h0 : (if (b + 1).testBit 0 then 1 else 0) = (b + 1) % 2 := by
        rcases Nat.mod_two_eq_zero_or_one (b + 1) with h | h <;>
          simp [Nat.testBit_zero, h]
      have hf : ∀ j ∈ List.range k,
          ((b + 1) / 2).testBit j =
            ((fun j => (b + 1).testBit j) ∘ Nat.succ) j := by
        intro j hj
        simp [Function.comp, Nat.testBit_add_one]
      rw [List.countP_congr (fun j hj => by rw [hf j hj])]
      omega

/-- SensorArray::popcount counts the set bits among the low 8 bits. -/
theorem popcount_eq_countP (b : ℕ) :
    SensorArray.popcount b =
      (List.range 8).countP (fun j => b.testBit j) := by
  unfold SensorArray.popcount SENSOR_FILTER_WINDOW
  have hmask : b &&& ((1 <<< 8) - 1) < 2 ^ 8 := by
    have h := Nat.and_le_right (n := b) (m := (1 <<< 8) - 1)
    omega
  rw [popcountAux_spec 8 _ hmask]
  refine List.countP_congr fun j hj => ?_
  have hj8 : j < 8 := List.mem_range.mp hj
  have h255 : ((1 <<< 8) - 1 : ℕ) = 2 ^ 8 - 1 := by rw [Nat.one_shiftLeft]
  rw [h255, Nat.testBit_and, Nat.testBit_two_pow_sub_one]
  simp [hj8]

/-- Pushing one sample writes that sample into bit `index` of the ring
buffer and leaves the other bits alone. -/
theorem pushSample_testBit (f : FilterState) (a : Bool) (hidx : f.index < 8)
    (j : ℕ) (hj : j < 8) :
    ((SensorArray.pushSample f a).buffer).testBit j =
      if j = f.index then a else f.buffer.testBit j := by
  unfold SensorArray.pushSample
  dsimp only
  cases a with
  | true =>
    rw [if_pos rfl, Nat.testBit_or, Nat.one_shiftLeft, Nat.testBit_two_pow]
    by_cases h : j = f.index
    · simp [h]
    · have h2 : f.index ≠ j := Ne.symm h
      simp [h, h2]
  | false =>
    rw [if_neg (by simp), Nat.testBit_and, Nat.testBit_xor,
      Nat.one_shiftLeft, Nat.testBit_two_pow]
    have h255 : Nat.testBit 255 j = true := by
      have he : (255 : ℕ) = 2 ^ 8 - 1 := by norm_num
      rw [he, Nat.testBit_two_pow_sub_one]
      simp [hj]
    rw [h255]
    by_cases h : j = f.index
    · simp [h]
    · have h2 : f.index ≠ j := Ne.symm h
      simp [h, h2]

theorem updateChannel_buffer_eq (f : FilterState) (a : Bool) :
    (SensorArray.updateChannel f a).buffer =
      (SensorArray.pushSample f a).buffer := by
  cases a <;> rfl

theorem updateChannel_index_eq (f : FilterState) (a : Bool) :
    (SensorArray.updateChannel f a).index =
      (f.index + 1) % SENSOR_FILTER_WINDOW := by
  cases a <;> rfl

/-- Bit `j` of the ring buffer after pushing a short trace: slot `j` holds
the sample that was written there (the ring index advances by one per
push), and untouched slots keep their old bits. -/
theorem foldl_updateChannel_testBit :
    ∀ (s : List Bool) (f : FilterState), f.index < 8 → s.length ≤ 8 →
      ∀ j : ℕ, j < 8 →
      ((s.foldl SensorArray.updateChannel f).buffer).testBit j =
        if (8 + j - f.index) % 8 < s.length then
          s.getD ((8 + j - f.index) % 8) false
        else f.buffer.testBit j := by
  intro s
  induction s with
  | nil =>
    intro f hf hlen j hj
    simp
  | cons a t ih =>
    intro f hf hlen j hj
    have hlen' : t.length ≤ 8 := by
      simp at hlen
      omega
    have hf' : (SensorArray.updateChannel f a).index < 8 := by
      rw [updateChannel_index_eq]
      show (f.index + 1) % 8 < 8
      exact Nat.mod_lt _ (by norm_num)
    rw [List.foldl_cons, ih (SensorArray.updateChannel f a) hf' hlen' j hj,
      updateChannel_index_eq]
    have ht7 : t.length ≤ 7 := by
      simp at hlen
      omega
    unfold SENSOR_FILTER_WINDOW
    by_cases hd : (8 + j - f.index) % 8 = 0
    · have hji : j = f.index := by omega
      have hd' : (8 + j - (f.index + 1) % 8) % 8 = 7 := by omega
      rw [hd', if_neg (by omega), updateChannel_buffer_eq,
        pushSample_testBit f a hf j hj, if_pos hji, hd,
        if_pos (by simp), List.getD_cons_zero]
    · have hd' : (8 + j - (f.index + 1) % 8) % 8 = (8 + j - f.index) % 8 - 1 := by
        omega
      rw [hd']
      by_cases hlt : (8 + j - f.index) % 8 - 1 < t.length
      · rw [if_pos hlt, if_pos (by simp; omega)]
        rw [show (8 + j - f.index) % 8 = ((8 + j - f.index) % 8 - 1) + 1 from by
          omega]
        rw [List.getD_cons_succ]
        simp
      · rw [if_neg hlt, if_neg (by simp; omega), updateChannel_buffer_eq,
          pushSample_testBit f a hf j hj,
          if_neg (show ¬ j = f.index from by omega)]

/-- Counting with getD over the index range is counting the list. -/
theorem countP_getD_range :
    ∀ s : List Bool,
      (List.range s.length).countP (fun k => s.getD k false) = s.count true := by
  intro s
  induction s with
  | nil => rfl
  | cons a t ih =>
    rw [List.length_cons, List.range_succ_eq_map, List.countP_cons,
      List.countP_map, List.count_cons]
    have hcomp : (List.range t.length).countP
        ((fun k => List.getD (a :: t) k false) ∘ Nat.succ) =
        (List.range t.length).countP (fun k => t.getD k false) :=
      List.countP_congr fun k hk => by simp [Function.comp]
    rw [hcomp, ih]
    cases a <;> simp

/-- After pushing exactly a window's worth of samples, the buffer's
popcount is the number of active samples pushed, whatever the prior
buffer contents. -/
theorem foldl_updateChannel_popcount (f : FilterState) (s : List Bool)
    (hf : f.index < 8) (hlen : s.length = 8) :
    SensorArray.popcount ((s.foldl SensorArray.updateChannel f).buffer) =
      s.count true := by
  rw [popcount_eq_countP]
  have hbit : ∀ j ∈ List.range 8,
      ((s.foldl SensorArray.updateChannel f).buffer).testBit j =
        (fun k => s.getD k false) ((8 + j - f.index) % 8) := by
    intro j hj
    have hj8 : j < 8 := List.mem_range.mp hj
    rw [foldl_updateChannel_testBit s f hf (by omega) j hj8,
      if_pos (by rw [hlen]; omega)]
  rw [List.countP_congr fun j hj => by rw [hbit j hj]]
  have hcomp : (fun j => (fun k => s.getD k false) ((8 + j - f.index) % 8)) =
      ((fun k => s.getD k false) ∘ fun j => (8 + j - f.index) % 8) := rfl
  rw [hcomp,
    ← List.countP_map (fun k => s.getD k false) (fun j => (8 + j - f.index) % 8)]
  have hperm : (List.map (fun j => (8 + j - f.index) % 8) (List.range 8)).Perm
      (List.range 8) := by
    interval_cases h : f.index <;> decide
  rw [hperm.countP_eq, ← hlen, countP_getD_range]

/-- C7: with window 8 and threshold 6, after any eight raw samples the
channel — if not saturated — evaluates ACTIVE when exactly 6 of the 8
window samples were active, and INACTIVE when exactly 5 were, for every
arrangement of the samples. -/
theorem C7_vote_thresholds (f : FilterState) (s : List Bool)
    (hidx : f.index < 8) (hlen : s.length = 8)
    (hsat : (s.foldl SensorArray.updateChannel f).saturated = false) :
    (s.count true = 6 →
      SensorArray.evaluateSensor (s.foldl SensorArray.updateChannel f) =
        SensorState.ACTIVE) ∧
    (s.count true = 5 →
      SensorArray.evaluateSensor (s.foldl SensorArray.updateChannel f) =
        SensorState.INACTIVE) := by
  have hpc := foldl_updateChannel_popcount f s hidx hlen
  unfold SensorArray.evaluateSensor SENSOR_FILTER_THRESHOLD
  rw [if_neg (by simp [hsat])]
  constructor
  · intro h6
    rw [if_pos (by rw [hpc, h6])]
  · intro h5
    rw [if_neg (by rw [hpc, h5]; omega)]

/-- C7 at a concrete input: six active samples out of eight give ACTIVE. -/
theorem C7_vote_thresholds_witness :
    SensorArray.evaluateSensor
        ([true, true, true, true, true, true, false, false].foldl
          SensorArray.updateChannel {}) = SensorState.ACTIVE :=
  (C7_vote_thresholds {} [true, true, true, true, true, true, false, false]
      (by decide) (by decide) (by decide)).1 (by decide)

end Sentry
